import Mathlib

/-!
# Verification of the koharu upstream-synchronization core

Shallow embedding of the update state machine and git drift/remote
operations of this repository:

* `scripts/koharu/constants/update.ts` — data model (statuses, options,
  state, actions);
* `scripts/koharu/utils/update-reducer.ts` (the current revision, the one
  carrying `branchWarning` and the rebase-forces-backup rule) — the pure
  reducer `updateReducer`;
* `scripts/koharu/utils/update-operations.ts` — `normalizeRemoteUrl`,
  `checkGitStatus`, `ensureUpstreamRemote`, `getUpdateInfo`,
  `getConflictFiles`.

JavaScript string primitives (`split`, `trim`, `slice`, `startsWith`,
regexes, truthiness of strings) are modelled by explicit functions on the
character list of a `String`; git subprocess calls are modelled by an
environment `GitWorld` mapping each issued command line to its output
(`none` = the command failed / threw).
-/

namespace Koharu

/-! ## JavaScript string primitives -/

/-- JS whitespace (the ASCII part, which is all that git output contains). -/
def isJsSpace (c : Char) : Bool :=
  c == ' ' || c == '\t' || c == '\n' || c == '\r' || c == '\x0b' || c == '\x0c'

/-- Embeds `String.prototype.trim`. -/
def jsTrim (s : String) : String :=
  String.mk (((s.data.dropWhile isJsSpace).reverse.dropWhile isJsSpace).reverse)

/-- Embeds `String.prototype.split` with a single-character separator. -/
def jsSplitCharAux (sep : Char) : List Char → List Char → List String
  | [], acc => [String.mk acc.reverse]
  | c :: cs, acc =>
    if c == sep then String.mk acc.reverse :: jsSplitCharAux sep cs []
    else jsSplitCharAux sep cs (c :: acc)

/-- Embeds `s.split(sep)` for a one-character `sep` (the only form the source uses). -/
def jsSplitChar (s : String) (sep : Char) : List String :=
  jsSplitCharAux sep s.data []

/-- Embeds `String.prototype.startsWith`. -/
def jsStartsWith (s p : String) : Bool :=
  p.data.isPrefixOf s.data

/-- Embeds `String.prototype.endsWith`. -/
def jsEndsWith (s p : String) : Bool :=
  p.data.isSuffixOf s.data

/-- Embeds `s.slice(n)` (drop the first `n` code units; all inputs here are ASCII). -/
def jsDrop (s : String) (n : Nat) : String :=
  String.mk (s.data.drop n)

/-- Embeds `s.slice(0, n)`. -/
def jsTake (s : String) (n : Nat) : String :=
  String.mk (s.data.take n)

/-- Emptiness of a JS string. -/
def jsIsEmpty (s : String) : Bool :=
  s.data.isEmpty

/-- JS truthiness of a `string | null` value: `null` and `''` are falsy. -/
def jsTruthy : Option String → Bool
  | some s => !jsIsEmpty s
  | none => false

/-- Embeds `x || d` on a `string | null` value `x`: the default replaces `null` and `''`. -/
def jsOr (x : Option String) (d : String) : String :=
  match x with
  | some s => if jsIsEmpty s then d else s
  | none => d

/-- Embeds `s.replace(/\.git$/, '')`. -/
def stripGitSuffix (s : String) : String :=
  if jsEndsWith s ".git" then String.mk (s.data.take (s.data.length - 4)) else s

/-- Embeds `s.replace(/^v/, '')`. -/
def stripLeadingV (s : String) : String :=
  if jsStartsWith s "v" then jsDrop s 1 else s

/-- ASCII lower-casing of one character (the host-lowercasing the URL parser does). -/
def asciiLower (c : Char) : Char :=
  if 'A' ≤ c && c ≤ 'Z' then Char.ofNat (c.toNat + 32) else c

/-- Decimal value of a digit run. -/
def digitsVal : List Char → Nat → Nat
  | [], acc => acc
  | c :: cs, acc => digitsVal cs (acc * 10 + (c.toNat - 48))

/-- Embeds `Number.parseInt(s, 10) || 0`: skip whitespace, optional sign, longest
digit prefix; no digits (`NaN`) falls back to `0`. -/
def parseIntOr0 (s : String) : Int :=
  let cs := s.data.dropWhile isJsSpace
  let signAndRest : Int × List Char :=
    match cs with
    | '-' :: t => (-1, t)
    | '+' :: t => (1, t)
    | t => (1, t)
  let ds := signAndRest.2.takeWhile Char.isDigit
  if ds.isEmpty then 0 else signAndRest.1 * Int.ofNat (digitsVal ds 0)

/-- First-discovery-order deduplication, the behaviour of
`Array.from(new Set(xs))`. -/
def dedupFirstAux : List String → List String → List String
  | _, [] => []
  | seen, x :: xs =>
    if seen.contains x then dedupFirstAux seen xs
    else x :: dedupFirstAux (x :: seen) xs

/-- Embeds `Array.from(new Set(xs))`. -/
def dedupFirst (xs : List String) : List String :=
  dedupFirstAux [] xs

/-! ## Data model (`scripts/koharu/constants/update.ts`) -/

/-- Embeds `UPSTREAM_REMOTE`. -/
def UPSTREAM_REMOTE : String := "upstream"

/-- Embeds `UPSTREAM_URL`. -/
def UPSTREAM_URL : String := "https://github.com/cosZone/astro-koharu.git"

/-- Embeds `MAIN_BRANCH`. -/
def MAIN_BRANCH : String := "main"

/-- Embeds `CommitInfo`. -/
structure CommitInfo where
  hash : String
  message : String
  date : String
  author : String
deriving DecidableEq, Repr

/-- Embeds `GitStatusInfo`. -/
structure GitStatusInfo where
  currentBranch : String
  isClean : Bool
  uncommittedCount : Nat
  uncommittedFiles : List String
deriving DecidableEq, Repr

/-- Embeds `UpdateInfo` (current revision: with `localCommits` and `isDowngrade`). -/
structure UpdateInfo where
  hasUpstream : Bool
  behindCount : Int
  aheadCount : Int
  commits : List CommitInfo
  localCommits : List CommitInfo
  currentVersion : String
  latestVersion : String
  isDowngrade : Bool
deriving DecidableEq, Repr

/-- Embeds `MergeResult`; the optional TS fields `error` and `isRebaseConflict`
become `Option` fields. -/
structure MergeResult where
  success : Bool
  hasConflict : Bool
  conflictFiles : List String
  error : Option String
  isRebaseConflict : Option Bool
deriving DecidableEq, Repr

/-- Embeds `UpdateStatus`. -/
inductive UpdateStatus where
  | checking
  | dirtyWarning
  | backupConfirm
  | backingUp
  | fetching
  | preview
  | merging
  | installing
  | done
  | conflict
  | upToDate
  | error
deriving DecidableEq, Repr

/-- Embeds `UpdateOptions` (current revision, as constructed in
`scripts/koharu/update.tsx`: `{ checkOnly, skipBackup, force, targetTag,
rebase, dryRun }`). -/
structure UpdateOptions where
  checkOnly : Bool
  skipBackup : Bool
  force : Bool
  targetTag : Option String
  rebase : Bool
  dryRun : Bool
deriving DecidableEq, Repr

/-- Embeds `UpdateState` (current revision, with `branchWarning`). -/
structure UpdateState where
  status : UpdateStatus
  gitStatus : Option GitStatusInfo
  updateInfo : Option UpdateInfo
  mergeResult : Option MergeResult
  backupFile : String
  error : String
  branchWarning : String
  options : UpdateOptions
deriving DecidableEq, Repr

/-- Embeds `UpdateAction`. -/
inductive UpdateAction where
  | GIT_CHECKED (payload : GitStatusInfo)
  | FETCHED (payload : UpdateInfo)
  | BACKUP_CONFIRM
  | BACKUP_SKIP
  | BACKUP_DONE (backupFile : String)
  | UPDATE_CONFIRM
  | MERGED (payload : MergeResult)
  | INSTALLED
  | ERROR (error : String)
deriving DecidableEq, Repr

/-! ## The reducer (`scripts/koharu/utils/update-reducer.ts`) -/

/-- Embeds `versionsMatch` binding of the `fetching` case: the current and latest
resolved versions agree and the latest is not the `"unknown"` fallback. -/
def versionsMatch (u : UpdateInfo) : Bool :=
  u.currentVersion == u.latestVersion && u.latestVersion != "unknown"

/-- Embeds `hasChanges` binding of the `fetching` case: an upgrade
(`behindCount > 0`) or a downgrade (`isDowngrade && aheadCount > 0`), and
the versions do not already match. -/
def hasChanges (u : UpdateInfo) : Bool :=
  !versionsMatch u &&
    (decide (u.behindCount > 0) || (u.isDowngrade && decide (u.aheadCount > 0)))

/-- Embeds `updateReducer`: the pure state-transition function. The `ERROR` action
is handled before the per-status switch; every branch not recognising its
action returns the state unchanged. -/
def updateReducer (state : UpdateState) (action : UpdateAction) : UpdateState :=
  match action with
  | .ERROR e => { state with status := .error, error := e }
  | _ =>
    match state.status with
    | .checking =>
      match action with
      | .GIT_CHECKED gitStatus =>
        let branchWarning :=
          if gitStatus.currentBranch != MAIN_BRANCH then
            "当前在 " ++ gitStatus.currentBranch ++ " 分支，建议在 " ++
              MAIN_BRANCH ++ " 分支执行更新"
          else ""
        if !gitStatus.isClean && !state.options.force then
          { state with status := .dirtyWarning, gitStatus := some gitStatus,
                       branchWarning := branchWarning }
        else
          { state with status := .fetching, gitStatus := some gitStatus,
                       branchWarning := branchWarning }
      | _ => state
    | .fetching =>
      match action with
      | .FETCHED updateInfo =>
        if !hasChanges updateInfo then
          { state with status := .upToDate, updateInfo := some updateInfo }
        else
          let nextStatus :=
            if state.options.rebase then UpdateStatus.backupConfirm
            else if state.options.skipBackup || state.options.force then
              UpdateStatus.preview
            else UpdateStatus.backupConfirm
          { state with status := nextStatus, updateInfo := some updateInfo }
      | _ => state
    | .backupConfirm =>
      match action with
      | .BACKUP_CONFIRM => { state with status := .backingUp }
      | .BACKUP_SKIP => { state with status := .preview }
      | _ => state
    | .backingUp =>
      match action with
      | .BACKUP_DONE backupFile =>
        { state with status := .preview, backupFile := backupFile }
      | _ => state
    | .preview =>
      match action with
      | .UPDATE_CONFIRM => { state with status := .merging }
      | _ => state
    | .merging =>
      match action with
      | .MERGED result =>
        if result.hasConflict then
          { state with status := .conflict, mergeResult := some result }
        else if !result.success then
          { state with status := .error, error := jsOr result.error "合并失败" }
        else
          { state with status := .installing, mergeResult := some result }
      | _ => state
    | .installing =>
      match action with
      | .INSTALLED => { state with status := .done }
      | _ => state
    | .dirtyWarning => state
    | .done => state
    | .conflict => state
    | .upToDate => state
    | .error => state

/-- Embeds `createInitialState`. -/
def createInitialState (options : UpdateOptions) : UpdateState :=
  { status := .checking, gitStatus := none, updateInfo := none,
    mergeResult := none, backupFile := "", error := "", branchWarning := "",
    options := options }

/-! ## Git environment

`update-operations.ts` shells out through `git(args)` (throws on a
non-zero exit) and `gitSafe(args)` (catches the throw and returns `null`).
A `GitWorld` fixes, for one moment of the repository, the outcome of every
command line: `none` is a failing command (a throw for `git`, a `null` for
`gitSafe`).  The two auxiliary fields model collaborators outside
`update-operations.ts`: `getVersion` (from `utils/version.ts`, absent from
the embedded module, its value opaque here) and `jsonVersion`, the JS
builtin composite `JSON.parse(content).version` — `none` when parsing
fails or the `version` field is absent. -/
structure GitWorld where
  git : String → Option String
  getVersion : String
  jsonVersion : String → Option String

/-- Embeds `gitSafe`: same outcome map, `null` instead of a throw. -/
def gitSafe (w : GitWorld) (args : String) : Option String :=
  w.git args

/-! ## `update-operations.ts` -/

/-- Model of the WHATWG `new URL` constructor restricted to the two fields
the source reads (`hostname`, `pathname`) and to the shapes git remote
URLs take (no query or fragment; a URL without a path gets pathname `""`).
The argument is the character list after the `scheme://` prefix.  Returns
`none` where the constructor would throw (empty host).  Credentials
(everything up to the last `@` of the authority) and the port are
stripped; the host is ASCII-lowercased, as the constructor does. -/
def urlHostPath (afterScheme : List Char) : Option (String × String) :=
  let authority := afterScheme.takeWhile (fun c => c != '/')
  let path := afterScheme.dropWhile (fun c => c != '/')
  let hostPort :=
    if authority.contains '@' then
      (authority.reverse.takeWhile (fun c => c != '@')).reverse
    else authority
  let hostname := hostPort.takeWhile (fun c => c != ':')
  if hostname.isEmpty then none
  else some (String.mk (hostname.map asciiLower), String.mk path)

/-- Model of the regex `^[^@]+@([^:]+):(.+)$`: a non-empty run without `@`,
then `@`, then the non-empty group 1 without `:`, then `:`, then the
non-empty group 2. -/
def scpMatch (s : String) : Option (String × String) :=
  let cs := s.data
  let user := cs.takeWhile (fun c => c != '@')
  if user.isEmpty then none
  else
    match cs.drop user.length with
    | '@' :: rest =>
      let host := rest.takeWhile (fun c => c != ':')
      if host.isEmpty then none
      else
        match rest.drop host.length with
        | ':' :: path =>
          if path.isEmpty then none else some (String.mk host, String.mk path)
        | _ => none
    | _ => none

/-- Embeds `normalizeRemoteUrl`: protocol-form URLs go through the URL
constructor and yield `hostname ++ pathname-without-.git`; SCP-like forms
yield `group1 ++ group2-without-.git`; anything else just loses a `.git`
suffix. -/
def normalizeRemoteUrl (url : String) : String :=
  let trimmed := jsTrim url
  if jsStartsWith trimmed "http://" || jsStartsWith trimmed "https://" ||
      jsStartsWith trimmed "ssh://" then
    let afterScheme :=
      if jsStartsWith trimmed "http://" then trimmed.data.drop 7
      else if jsStartsWith trimmed "https://" then trimmed.data.drop 8
      else trimmed.data.drop 6
    match urlHostPath afterScheme with
    | some hp => hp.1 ++ stripGitSuffix hp.2
    | none => stripGitSuffix trimmed
  else
    match scpMatch trimmed with
    | some m => m.1 ++ stripGitSuffix m.2
    | none => stripGitSuffix trimmed

/-- Embeds `checkGitStatus`; `none` when `git rev-parse --abbrev-ref HEAD` throws
(the function then propagates the exception). -/
def checkGitStatus (w : GitWorld) : Option GitStatusInfo :=
  match w.git "rev-parse --abbrev-ref HEAD" with
  | none => none
  | some currentBranch =>
    let statusOutput := jsOr (gitSafe w "status --porcelain") ""
    let uncommittedFiles :=
      (jsSplitChar statusOutput '\n').filter (fun line => !jsIsEmpty (jsTrim line))
    some { currentBranch := currentBranch,
           isClean := uncommittedFiles.isEmpty,
           uncommittedCount := uncommittedFiles.length,
           uncommittedFiles := uncommittedFiles.map (fun line => jsDrop line 3) }

/-- Embeds `hasUpstreamRemote`: `Boolean(gitSafe('remote get-url upstream'))`. -/
def hasUpstreamRemote (w : GitWorld) : Bool :=
  jsTruthy (gitSafe w ("remote get-url " ++ UPSTREAM_REMOTE))

/-- Embeds `hasUpstreamTrackingRef`. -/
def hasUpstreamTrackingRef (w : GitWorld) : Bool :=
  jsTruthy (gitSafe w
    ("show-ref --verify refs/remotes/" ++ UPSTREAM_REMOTE ++ "/" ++ MAIN_BRANCH))

/-- Embeds `getUpstreamRemoteUrl`. -/
def getUpstreamRemoteUrl (w : GitWorld) : Option String :=
  gitSafe w ("remote get-url " ++ UPSTREAM_REMOTE)

/-- Embeds `addUpstreamRemote`, instrumented: the second component is the trace
of mutating git commands it issues (exactly the one `remote add`). -/
def addUpstreamRemote (w : GitWorld) : Bool × List String :=
  ((w.git ("remote add " ++ UPSTREAM_REMOTE ++ " " ++ UPSTREAM_URL)).isSome,
   ["remote add " ++ UPSTREAM_REMOTE ++ " " ++ UPSTREAM_URL])

/-- Embeds `EnsureUpstreamResult.reason`. -/
inductive EnsureReason where
  | mismatch
  | missing
  | addFailed
deriving DecidableEq, Repr

/-- Embeds `EnsureUpstreamResult`; optional TS fields become `Option`. -/
structure EnsureUpstreamResult where
  existed : Bool
  success : Bool
  reason : Option EnsureReason
  currentUrl : Option String
deriving DecidableEq, Repr

/-- The `currentUrl`-falsy path of `ensureUpstreamRemote` (remote absent,
or its URL empty): refuse when `allowAdd` is false, otherwise attempt the
add.  Second component: trace of mutating git commands issued. -/
def ensureUpstreamAbsent (w : GitWorld) (allowAdd : Bool) :
    EnsureUpstreamResult × List String :=
  if !allowAdd then
    ({ existed := false, success := false, reason := some .missing,
       currentUrl := none }, [])
  else
    let r := addUpstreamRemote w
    (if r.1 then
       { existed := false, success := true, reason := none, currentUrl := none }
     else
       { existed := false, success := false, reason := some .addFailed,
         currentUrl := none }, r.2)

/-- Embeds `ensureUpstreamRemote` (the TS default `allowAdd ?? true` is the
caller's concern; here `allowAdd` is explicit).  Second component: trace
of mutating git commands issued. -/
def ensureUpstreamRemote (w : GitWorld) (allowAdd : Bool) :
    EnsureUpstreamResult × List String :=
  match getUpstreamRemoteUrl w with
  | some url =>
    if !jsIsEmpty url then
      let expected := normalizeRemoteUrl UPSTREAM_URL
      let actual := normalizeRemoteUrl url
      if expected != actual then
        ({ existed := true, success := false, reason := some .mismatch,
           currentUrl := some url }, [])
      else
        ({ existed := true, success := true, reason := none,
           currentUrl := some url }, [])
    else ensureUpstreamAbsent w allowAdd
  | none => ensureUpstreamAbsent w allowAdd

/-- Embeds `parseCommits`: split the trimmed log output on newlines and read
`hash|message|date|author` per line (a missing field, `undefined` in JS,
is rendered as `""`). -/
def parseCommits (output : String) : List CommitInfo :=
  if jsIsEmpty (jsTrim output) then []
  else
    ((jsSplitChar (jsTrim output) '\n').filter
        (fun line => !jsIsEmpty (jsTrim line))).map
      (fun line =>
        let ps := jsSplitChar line '|'
        { hash := ps.getD 0 "", message := ps.getD 1 "",
          date := ps.getD 2 "", author := ps.getD 3 "" })

/-- Embeds `normalizeTag`: prefix `v` when absent. -/
def normalizeTag (tag : String) : String :=
  if jsStartsWith tag "v" then tag else "v" ++ tag

/-- The `targetTag ? normalizeTag(targetTag) : null` binding: a missing or
empty (falsy) tag yields `null`. -/
def normalizedTagOf : Option String → Option String
  | some t => if jsIsEmpty t then none else some (normalizeTag t)
  | none => none

/-- Embeds `getUpdateInfo targetTag`: drift summary against the resolved target
reference. -/
def getUpdateInfo (w : GitWorld) (targetTag : Option String) : UpdateInfo :=
  let hasUpstream := hasUpstreamRemote w
  if !hasUpstream then
    { hasUpstream := false, behindCount := 0, aheadCount := 0, commits := [],
      localCommits := [], currentVersion := w.getVersion,
      latestVersion := "unknown", isDowngrade := false }
  else
    let normalizedTag := normalizedTagOf targetTag
    let targetRef := normalizedTag.getD (UPSTREAM_REMOTE ++ "/" ++ MAIN_BRANCH)
    let revList :=
      jsOr (gitSafe w ("rev-list --left-right --count HEAD..." ++ targetRef))
        "0\t0"
    let parts := jsSplitChar revList '\t'
    let aheadCount := parseIntOr0 (parts.getD 0 "")
    let behindCount := parseIntOr0 (parts.getD 1 "")
    let isDowngrade :=
      normalizedTag.isSome && decide (aheadCount > 0) && decide (behindCount = 0)
    let commitFormat := "%h|%s|%ar|%an"
    let commits :=
      if isDowngrade then
        parseCommits (jsOr (gitSafe w
          ("log " ++ targetRef ++ "..HEAD --pretty=format:\"" ++ commitFormat ++
            "\" --no-merges")) "")
      else
        parseCommits (jsOr (gitSafe w
          ("log HEAD.." ++ targetRef ++ " --pretty=format:\"" ++ commitFormat ++
            "\" --no-merges")) "")
    let localCommits :=
      parseCommits (jsOr (gitSafe w
        ("log " ++ targetRef ++ "..HEAD --pretty=format:\"" ++ commitFormat ++
          "\" --no-merges")) "")
    let parsedVersion :=
      match normalizedTag with
      | some t => stripLeadingV t
      | none =>
        match gitSafe w
            ("show " ++ UPSTREAM_REMOTE ++ "/" ++ MAIN_BRANCH ++ ":package.json") with
        | some content =>
          if jsIsEmpty content then "unknown"
          else jsOr (w.jsonVersion content) "unknown"
        | none => "unknown"
    { hasUpstream := true, behindCount := behindCount, aheadCount := aheadCount,
      commits := commits, localCommits := localCommits,
      currentVersion := w.getVersion, latestVersion := parsedVersion,
      isDowngrade := isDowngrade }

/-- The diff-index unmerged-path signal of `getConflictFiles`:
`git diff --name-only --diff-filter=U`, one trimmed non-empty path per line. -/
def conflictDiffSignal (w : GitWorld) : List String :=
  let diffOutput := jsOr (gitSafe w "diff --name-only --diff-filter=U") ""
  ((jsSplitChar diffOutput '\n').map jsTrim).filter (fun l => !jsIsEmpty l)

/-- The working-tree status-scan signal of `getConflictFiles`: porcelain
lines whose two-character code contains `U` or is `AA`/`DD`, stripped of
the three-character prefix. -/
def conflictStatusSignal (w : GitWorld) : List String :=
  let statusOutput := jsOr (gitSafe w "status --porcelain") ""
  (((jsSplitChar statusOutput '\n').filter
      (fun line => !jsIsEmpty (jsTrim line))).filter
    (fun line =>
      let st := jsTake line 2
      st.data.contains 'U' || st == "AA" || st == "DD")).map
    (fun line => jsDrop line 3)

/-- Embeds `getConflictFiles`: the deduplicated diff-index signal when it is
non-empty, otherwise the deduplicated status-scan signal. -/
def getConflictFiles (w : GitWorld) : List String :=
  let diffFiles := conflictDiffSignal w
  if !diffFiles.isEmpty then dedupFirst diffFiles
  else dedupFirst (conflictStatusSignal w)

/-! ## Action and status classification helpers -/

/-- Discriminates the global `ERROR` action, the one the reducer handles
before its per-status switch. -/
def isErrorAction : UpdateAction → Bool
  | .ERROR _ => true
  | _ => false

/-- The five statuses the reducer's final group treats as terminal. -/
def isTerminalStatus : UpdateStatus → Bool
  | .dirtyWarning => true
  | .done => true
  | .conflict => true
  | .upToDate => true
  | .error => true
  | _ => false

/-- The action (other than `ERROR`) that each status's switch arm
recognises; everything else falls through to `return state`. -/
def expectsAction : UpdateStatus → UpdateAction → Bool
  | .checking, .GIT_CHECKED _ => true
  | .fetching, .FETCHED _ => true
  | .backupConfirm, .BACKUP_CONFIRM => true
  | .backupConfirm, .BACKUP_SKIP => true
  | .backingUp, .BACKUP_DONE _ => true
  | .preview, .UPDATE_CONFIRM => true
  | .merging, .MERGED _ => true
  | .installing, .INSTALLED => true
  | _, _ => false

/-! ## Concrete fixtures used by witnesses and counterexamples -/

/-- Options with every boolean flag off. -/
def optsPlain : UpdateOptions :=
  { checkOnly := false, skipBackup := false, force := false, targetTag := none,
    rebase := false, dryRun := false }

/-- Rebase mode with both backup-skipping flags set, the extreme case of
the rebase-forces-backup rule. -/
def optsRebaseAll : UpdateOptions :=
  { checkOnly := false, skipBackup := true, force := true, targetTag := none,
    rebase := true, dryRun := false }

/-- A session sitting in `fetching` with `optsRebaseAll`. -/
def sFetchRebase : UpdateState :=
  { createInitialState optsRebaseAll with status := .fetching }

/-- A session sitting in `fetching` with `optsPlain`. -/
def sFetchPlain : UpdateState :=
  { createInitialState optsPlain with status := .fetching }

/-- A session sitting in `checking` with `optsPlain`. -/
def sCheckPlain : UpdateState :=
  { createInitialState optsPlain with status := .checking }

/-- A session already in the terminal `done` status. -/
def stateDone : UpdateState :=
  { createInitialState optsPlain with status := .done }

/-- A drift summary with one incoming commit (an update to apply). -/
def infoChanged : UpdateInfo :=
  { hasUpstream := true, behindCount := 1, aheadCount := 0, commits := [],
    localCommits := [], currentVersion := "1.0.0", latestVersion := "1.1.0",
    isDowngrade := false }

/-- A clean working tree on a non-main branch. -/
def gsDevBranch : GitStatusInfo :=
  { currentBranch := "develop", isClean := true, uncommittedCount := 0,
    uncommittedFiles := [] }

/-- A repository with no git command succeeding (in particular no
`upstream` remote configured). -/
def wNoRemote : GitWorld :=
  { git := fun _ => none, getVersion := "1.0.0", jsonVersion := fun _ => none }

/-- A repository whose `upstream` remote points at a foreign URL. -/
def wMismatchRemote : GitWorld :=
  { git := fun c =>
      if c = "remote get-url upstream" then some "https://example.com/other/repo.git"
      else none,
    getVersion := "1.0.0", jsonVersion := fun _ => none }

/-- A repository where the diff-index reports one unmerged file while the
porcelain status reports a different both-added file. -/
def wTwoSignals : GitWorld :=
  { git := fun c =>
      if c = "diff --name-only --diff-filter=U" then some "conflict-a.txt"
      else if c = "status --porcelain" then some "AA conflict-b.txt"
      else none,
    getVersion := "1.0.0", jsonVersion := fun _ => none }

/-- A repository on `main` with two uncommitted files. -/
def wDirtyTree : GitWorld :=
  { git := fun c =>
      if c = "rev-parse --abbrev-ref HEAD" then some "main"
      else if c = "status --porcelain" then some " M file1\n?? file2"
      else none,
    getVersion := "1.0.0", jsonVersion := fun _ => none }

/-- The `GitStatusInfo` that `checkGitStatus` derives from `wDirtyTree`. -/
def gsDirtyTree : GitStatusInfo :=
  { currentBranch := "main", isClean := false, uncommittedCount := 2,
    uncommittedFiles := ["file1", "file2"] }

/-! ## Shared lemmas -/

/-- String concatenation concatenates the character lists. -/
theorem data_append (a b : String) : (a ++ b).data = a.data ++ b.data := rfl

/-- The `hasChanges` condition of the `fetching` arm, spelled as a
proposition over the payload's fields. -/
theorem hasChanges_iff (u : UpdateInfo) :
    hasChanges u = true ↔
      ¬(u.currentVersion = u.latestVersion ∧ u.latestVersion ≠ "unknown") ∧
        (0 < u.behindCount ∨ (u.isDowngrade = true ∧ 0 < u.aheadCount)) := by
  simp [hasChanges, versionsMatch, Bool.and_eq_true, Bool.or_eq_true,
    Bool.not_eq_true', Bool.and_eq_false_iff, decide_eq_true_iff, not_and]
  tauto

/-- Shape of the `fetching`/`FETCHED` transition: `up-to-date` without
changes, otherwise the backup/preview choice with rebase taking
precedence. -/
theorem fetched_status (g : Option GitStatusInfo) (u : Option UpdateInfo)
    (m : Option MergeResult) (b e bw : String) (o : UpdateOptions) (info : UpdateInfo) :
    (updateReducer ⟨UpdateStatus.fetching, g, u, m, b, e, bw, o⟩
        (UpdateAction.FETCHED info)).status =
      (if hasChanges info then
        (if o.rebase then UpdateStatus.backupConfirm
         else if o.skipBackup || o.force then UpdateStatus.preview
         else UpdateStatus.backupConfirm)
       else UpdateStatus.upToDate) := by
  by_cases hc : hasChanges info = true <;> simp [updateReducer, hc]

/-- Shape of the `checking`/`GIT_CHECKED` transition: the branch check
only fills `branchWarning`, the dirty check decides the next status. -/
theorem checked_result (g : Option GitStatusInfo) (u : Option UpdateInfo)
    (m : Option MergeResult) (b e bw : String) (o : UpdateOptions) (gs : GitStatusInfo) :
    updateReducer ⟨UpdateStatus.checking, g, u, m, b, e, bw, o⟩
        (UpdateAction.GIT_CHECKED gs) =
      { status := (if !gs.isClean && !o.force then UpdateStatus.dirtyWarning
                   else UpdateStatus.fetching),
        gitStatus := some gs, updateInfo := u, mergeResult := m, backupFile := b,
        error := e,
        branchWarning :=
          (if gs.currentBranch != MAIN_BRANCH then
            "当前在 " ++ gs.currentBranch ++ " 分支，建议在 " ++
              MAIN_BRANCH ++ " 分支执行更新"
          else ""),
        options := o } := by
  by_cases hd : (!gs.isClean && !o.force) = true <;> simp [updateReducer, hd]

/-- The `normalizedTag` binding is non-null exactly when the supplied tag
argument is JS-truthy. -/
theorem normalizedTagOf_isSome (t : Option String) :
    (normalizedTagOf t).isSome = jsTruthy t := by
  cases t with
  | none => rfl
  | some s => by_cases h : jsIsEmpty s = true <;> simp [normalizedTagOf, jsTruthy, h]

/-- Membership in the set-based deduplication, relative to the already
seen elements. -/
theorem mem_dedupFirstAux (seen xs : List String) (a : String) :
    a ∈ dedupFirstAux seen xs ↔ a ∈ xs ∧ a ∉ seen := by
  induction xs generalizing seen with
  | nil => simp [dedupFirstAux]
  | cons x xs ih =>
    simp only [dedupFirstAux]
    by_cases h : seen.contains x = true
    · have hx : x ∈ seen := List.elem_iff.1 h
      rw [if_pos h, ih]
      simp only [List.mem_cons]
      constructor
      · rintro ⟨h1, h2⟩; exact ⟨Or.inr h1, h2⟩
      · rintro ⟨rfl | h1, h2⟩
        · exact absurd hx h2
        · exact ⟨h1, h2⟩
    · have hx : x ∉ seen := fun hm => h (List.elem_iff.2 hm)
      rw [if_neg h]
      simp only [List.mem_cons, ih, not_or]
      constructor
      · rintro (rfl | ⟨h1, h2, h3⟩)
        · exact ⟨Or.inl rfl, hx⟩
        · exact ⟨Or.inr h1, h3⟩
      · rintro ⟨rfl | h1, h2⟩
        · exact Or.inl rfl
        · by_cases hax : a = x
          · exact Or.inl hax
          · exact Or.inr ⟨h1, hax, h2⟩

/-- The deduplication keeps the input's order (it is a sublist). -/
theorem dedupFirstAux_sublist (seen xs : List String) :
    (dedupFirstAux seen xs).Sublist xs := by
  induction xs generalizing seen with
  | nil => simp [dedupFirstAux]
  | cons x xs ih =>
    simp only [dedupFirstAux]
    by_cases h : seen.contains x = true
    · rw [if_pos h]; exact (ih seen).cons x
    · rw [if_neg h]; exact (ih (x :: seen)).cons₂ x

/-- The deduplication leaves no duplicates. -/
theorem nodup_dedupFirstAux (seen xs : List String) :
    (dedupFirstAux seen xs).Nodup := by
  induction xs generalizing seen with
  | nil => simp [dedupFirstAux]
  | cons x xs ih =>
    simp only [dedupFirstAux]
    by_cases h : seen.contains x = true
    · rw [if_pos h]; exact ih seen
    · rw [if_neg h]
      refine List.nodup_cons.2 ⟨?_, ih (x :: seen)⟩
      intro hmem
      exact ((mem_dedupFirstAux _ _ _).1 hmem).2 (List.mem_cons_self x seen)

/-! ## Claim theorems -/

/-- Claim C1: in every session whose options have `rebase` set, a `FETCHED`
event received in status `fetching` with a payload that has changes to
apply moves the status to `backup-confirm` and never to `preview`, for
every combination of the `skipBackup` and `force` options. -/
theorem rebase_always_backup_confirm (s : UpdateState) (info : UpdateInfo)
    (hs : s.status = UpdateStatus.fetching) (hr : s.options.rebase = true)
    (hc : hasChanges info = true) :
    (updateReducer s (UpdateAction.FETCHED info)).status =
        UpdateStatus.backupConfirm ∧
      (updateReducer s (UpdateAction.FETCHED info)).status ≠
        UpdateStatus.preview := by
  obtain ⟨st, g, u, m, b, e, bw, o⟩ := s
  dsimp only at hs hr
  subst hs
  simp [updateReducer, hc, hr]

/-- Witness for C1: the rebase session with `skipBackup` and `force` both
set still lands in `backup-confirm` on a one-commit-behind payload. -/
theorem rebase_always_backup_confirm_witness :
    sFetchRebase.status = UpdateStatus.fetching ∧
    sFetchRebase.options.rebase = true ∧
    hasChanges infoChanged = true ∧
    ((updateReducer sFetchRebase (UpdateAction.FETCHED infoChanged)).status =
        UpdateStatus.backupConfirm ∧
      (updateReducer sFetchRebase (UpdateAction.FETCHED infoChanged)).status ≠
        UpdateStatus.preview) :=
  ⟨rfl, rfl, by decide,
    rebase_always_backup_confirm sFetchRebase infoChanged rfl rfl (by decide)⟩

/-- Counterexample to claim C2: `done` is a terminal status, yet the
global `ERROR` event (handled before the per-status switch) moves the
session out of it, to status `error`. -/
theorem terminal_error_event_cex :
    isTerminalStatus stateDone.status = true ∧
    (updateReducer stateDone (UpdateAction.ERROR "boom")).status =
      UpdateStatus.error ∧
    (updateReducer stateDone (UpdateAction.ERROR "boom")).status ≠
      stateDone.status := by decide

/-- Claim C2 as amended: once a terminal status is reached, every event
other than `ERROR` leaves the whole state (hence the status) unchanged;
the `ERROR` event moves every state, terminal or not, to status `error`. -/
theorem terminal_absorbs_non_error :
    (∀ (s : UpdateState) (a : UpdateAction), isTerminalStatus s.status = true →
      isErrorAction a = false → updateReducer s a = s) ∧
    (∀ (s : UpdateState) (e : String),
      (updateReducer s (UpdateAction.ERROR e)).status = UpdateStatus.error) := by
  constructor
  · intro s a ht ha
    obtain ⟨st, g, u, m, b, e, bw, o⟩ := s
    dsimp only at ht
    cases st <;> cases a <;> simp_all [updateReducer, isTerminalStatus, isErrorAction]
  · intro s e
    obtain ⟨st, g, u, m, b, er, bw, o⟩ := s
    simp [updateReducer]

/-- Witness for the amended C2: the `done` session ignores `INSTALLED` and
is sent to `error` by an `ERROR` event. -/
theorem terminal_absorbs_non_error_witness :
    (isTerminalStatus stateDone.status = true ∧
      isErrorAction UpdateAction.INSTALLED = false ∧
      updateReducer stateDone UpdateAction.INSTALLED = stateDone) ∧
    (updateReducer stateDone (UpdateAction.ERROR "boom")).status =
      UpdateStatus.error :=
  ⟨⟨by decide, by decide,
      terminal_absorbs_non_error.1 stateDone UpdateAction.INSTALLED
        (by decide) (by decide)⟩,
    terminal_absorbs_non_error.2 stateDone "boom"⟩

/-- Claim C3: a `FETCHED` event in status `fetching` reaches `up-to-date`
exactly when the payload has no relevant change — "has changes" being:
the resolved versions do not match (match = equal and latest not
`"unknown"`) and (behind-count positive, or a downgrade with a positive
ahead-count) — and otherwise proceeds to `backup-confirm` or `preview`. -/
theorem fetched_up_to_date_iff (s : UpdateState) (info : UpdateInfo)
    (hs : s.status = UpdateStatus.fetching) :
    ((updateReducer s (UpdateAction.FETCHED info)).status = UpdateStatus.upToDate ↔
      ¬(¬(info.currentVersion = info.latestVersion ∧ info.latestVersion ≠ "unknown") ∧
        (0 < info.behindCount ∨ (info.isDowngrade = true ∧ 0 < info.aheadCount)))) ∧
    ((updateReducer s (UpdateAction.FETCHED info)).status = UpdateStatus.upToDate ∨
      (updateReducer s (UpdateAction.FETCHED info)).status = UpdateStatus.backupConfirm ∨
      (updateReducer s (UpdateAction.FETCHED info)).status = UpdateStatus.preview) := by
  obtain ⟨st, g, u, m, b, e, bw, o⟩ := s
  dsimp only at hs
  subst hs
  rw [← hasChanges_iff, fetched_status]
  by_cases hc : hasChanges info = true
  · rw [if_pos hc]
    by_cases hr : o.rebase = true
    · simp [hr, hc]
    · by_cases hsf : (o.skipBackup || o.force) = true
      · simp [hr, hsf, hc]
      · simp [hr, hsf, hc]
  · rw [if_neg (by simp [hc])]
    simp [hc]

/-- Witness for C3: the plain `fetching` session on a one-commit-behind
payload does not stop at `up-to-date`. -/
theorem fetched_up_to_date_iff_witness :
    sFetchPlain.status = UpdateStatus.fetching ∧
    (((updateReducer sFetchPlain (UpdateAction.FETCHED infoChanged)).status =
        UpdateStatus.upToDate ↔
      ¬(¬(infoChanged.currentVersion = infoChanged.latestVersion ∧
            infoChanged.latestVersion ≠ "unknown") ∧
        (0 < infoChanged.behindCount ∨
          (infoChanged.isDowngrade = true ∧ 0 < infoChanged.aheadCount)))) ∧
    ((updateReducer sFetchPlain (UpdateAction.FETCHED infoChanged)).status =
        UpdateStatus.upToDate ∨
      (updateReducer sFetchPlain (UpdateAction.FETCHED infoChanged)).status =
        UpdateStatus.backupConfirm ∨
      (updateReducer sFetchPlain (UpdateAction.FETCHED infoChanged)).status =
        UpdateStatus.preview)) :=
  ⟨rfl, fetched_up_to_date_iff sFetchPlain infoChanged rfl⟩

/-- Claim C4: `getUpdateInfo` reports a downgrade exactly when a (truthy)
target tag was supplied, the ahead-count is positive and the behind-count
is zero; with no target tag the flag is false in every environment,
including one without an upstream remote. -/
theorem isDowngrade_characterization (w : GitWorld) (targetTag : Option String) :
    ((getUpdateInfo w targetTag).isDowngrade = true ↔
      jsTruthy targetTag = true ∧ 0 < (getUpdateInfo w targetTag).aheadCount ∧
        (getUpdateInfo w targetTag).behindCount = 0) ∧
    (getUpdateInfo w none).isDowngrade = false := by
  have main : ∀ t : Option String,
      ((getUpdateInfo w t).isDowngrade = true ↔
        jsTruthy t = true ∧ 0 < (getUpdateInfo w t).aheadCount ∧
          (getUpdateInfo w t).behindCount = 0) := by
    intro t
    by_cases hU : hasUpstreamRemote w = true
    · simp only [getUpdateInfo, hU, Bool.not_true, Bool.false_eq_true, if_false]
      simp [Bool.and_eq_true, decide_eq_true_iff, normalizedTagOf_isSome,
        Option.isSome_iff_exists, and_assoc]
    · simp only [Bool.not_eq_true] at hU
      simp [getUpdateInfo, hU]
  refine ⟨main targetTag, ?_⟩
  have h2 := main none
  by_cases h : (getUpdateInfo w none).isDowngrade = true
  · exact absurd (h2.1 h).1 (by simp [jsTruthy])
  · simpa using h

/-- Claim C5: with no upstream remote configured and `allowAdd = false`,
`ensureUpstreamRemote` reports `missing` and issues no mutating git
command; with a remote whose normalized URL differs from the expected one
it reports `mismatch` carrying the offending URL, again issuing no
mutating git command. -/
theorem ensure_upstream_missing_mismatch :
    (∀ w : GitWorld, jsTruthy (getUpstreamRemoteUrl w) = false →
      ensureUpstreamRemote w false =
        ({ existed := false, success := false, reason := some EnsureReason.missing,
           currentUrl := none }, [])) ∧
    (∀ (w : GitWorld) (url : String) (allowAdd : Bool),
      getUpstreamRemoteUrl w = some url → jsIsEmpty url = false →
      normalizeRemoteUrl url ≠ normalizeRemoteUrl UPSTREAM_URL →
      ensureUpstreamRemote w allowAdd =
        ({ existed := true, success := false, reason := some EnsureReason.mismatch,
           currentUrl := some url }, [])) := by
  constructor
  · intro w h
    unfold ensureUpstreamRemote
    cases hu : getUpstreamRemoteUrl w with
    | none => simp [ensureUpstreamAbsent]
    | some url =>
      rw [hu] at h
      simp only [jsTruthy, Bool.not_eq_true'] at h
      simp [h, ensureUpstreamAbsent]
  · intro w url allowAdd hu hne hmm
    unfold ensureUpstreamRemote
    rw [hu]
    have hb : (normalizeRemoteUrl UPSTREAM_URL != normalizeRemoteUrl url) = true := by
      simp only [bne_iff_ne, ne_eq]
      exact fun hh => hmm hh.symm
    simp [hne, hb]

/-- Witness for C5: a remote-less repository under `allowAdd = false`, and
a repository whose upstream remote points at a foreign URL. -/
theorem ensure_upstream_missing_mismatch_witness :
    (jsTruthy (getUpstreamRemoteUrl wNoRemote) = false ∧
      ensureUpstreamRemote wNoRemote false =
        ({ existed := false, success := false, reason := some EnsureReason.missing,
           currentUrl := none }, [])) ∧
    (getUpstreamRemoteUrl wMismatchRemote = some "https://example.com/other/repo.git" ∧
      jsIsEmpty "https://example.com/other/repo.git" = false ∧
      normalizeRemoteUrl "https://example.com/other/repo.git" ≠
        normalizeRemoteUrl UPSTREAM_URL ∧
      ensureUpstreamRemote wMismatchRemote true =
        ({ existed := true, success := false, reason := some EnsureReason.mismatch,
           currentUrl := some "https://example.com/other/repo.git" }, [])) :=
  ⟨⟨by decide, ensure_upstream_missing_mismatch.1 wNoRemote (by decide)⟩,
    ⟨rfl, by decide, by decide,
      ensure_upstream_missing_mismatch.2 wMismatchRemote
        "https://example.com/other/repo.git" true rfl (by decide) (by decide)⟩⟩

/-- Claim C6: a `GIT_CHECKED` event in status `checking` whose payload is
on a branch other than the main branch is not a hard stop: the state gets
a non-empty warning string and the status is what it would also be on the
main branch — `dirty-warning` exactly when the tree is dirty and `force`
is unset, otherwise `fetching`. -/
theorem branch_mismatch_warns_not_stops (s : UpdateState) (gs : GitStatusInfo)
    (hs : s.status = UpdateStatus.checking)
    (hb : gs.currentBranch ≠ MAIN_BRANCH) :
    (updateReducer s (UpdateAction.GIT_CHECKED gs)).branchWarning ≠ "" ∧
    (updateReducer s (UpdateAction.GIT_CHECKED gs)).status =
      (if !gs.isClean && !s.options.force then UpdateStatus.dirtyWarning
       else UpdateStatus.fetching) ∧
    (updateReducer s (UpdateAction.GIT_CHECKED gs)).status =
      (updateReducer s
        (UpdateAction.GIT_CHECKED { gs with currentBranch := MAIN_BRANCH })).status := by
  obtain ⟨st, g, u, m, b, e, bw, o⟩ := s
  dsimp only at hs hb ⊢
  subst hs
  rw [checked_result, checked_result]
  refine ⟨?_, ?_, ?_⟩
  · have hbne : (gs.currentBranch != MAIN_BRANCH) = true := by
      simpa [bne_iff_ne] using hb
    simp only [hbne, if_pos]
    intro h
    have hd := congrArg String.data h
    simp only [data_append, List.append_eq_nil] at hd
    exact absurd hd.1.1.1.1 (by decide)
  · rfl
  · rfl

/-- Witness for C6: a clean tree on branch `develop` warns and proceeds to
`fetching`. -/
theorem branch_mismatch_warns_not_stops_witness :
    sCheckPlain.status = UpdateStatus.checking ∧
    gsDevBranch.currentBranch ≠ MAIN_BRANCH ∧
    ((updateReducer sCheckPlain (UpdateAction.GIT_CHECKED gsDevBranch)).branchWarning ≠ "" ∧
    (updateReducer sCheckPlain (UpdateAction.GIT_CHECKED gsDevBranch)).status =
      (if !gsDevBranch.isClean && !sCheckPlain.options.force then
        UpdateStatus.dirtyWarning
       else UpdateStatus.fetching) ∧
    (updateReducer sCheckPlain (UpdateAction.GIT_CHECKED gsDevBranch)).status =
      (updateReducer sCheckPlain
        (UpdateAction.GIT_CHECKED
          { gsDevBranch with currentBranch := MAIN_BRANCH })).status) :=
  ⟨rfl, by decide,
    branch_mismatch_warns_not_stops sCheckPlain gsDevBranch rfl (by decide)⟩

/-- Counterexample to claim C7: with a non-empty diff-index signal the
status-scan signal is ignored entirely — `conflict-b.txt` is reported only
by the status scan and is missing from the result, so the result is not
the union of the two signals. -/
theorem conflict_files_not_union_cex :
    conflictDiffSignal wTwoSignals = ["conflict-a.txt"] ∧
    conflictStatusSignal wTwoSignals = ["conflict-b.txt"] ∧
    getConflictFiles wTwoSignals = ["conflict-a.txt"] ∧
    "conflict-b.txt" ∉ getConflictFiles wTwoSignals := by decide

/-- Claim C7 as amended: `getConflictFiles` returns the deduplicated
diff-index signal when that signal is non-empty, and only otherwise falls
back to the deduplicated status-scan signal; the result is duplicate-free
and order-stable by first discovery (a sublist of the chosen signal with
the same members). -/
theorem getConflictFiles_signal_fallback (w : GitWorld) :
    getConflictFiles w =
      (if (conflictDiffSignal w).isEmpty then dedupFirst (conflictStatusSignal w)
       else dedupFirst (conflictDiffSignal w)) ∧
    (getConflictFiles w).Nodup ∧
    (getConflictFiles w).Sublist
      (if (conflictDiffSignal w).isEmpty then conflictStatusSignal w
       else conflictDiffSignal w) ∧
    (∀ x, x ∈ getConflictFiles w ↔
      x ∈ (if (conflictDiffSignal w).isEmpty then conflictStatusSignal w
           else conflictDiffSignal w)) := by
  by_cases h : (conflictDiffSignal w).isEmpty = true <;>
    simp [getConflictFiles, h, dedupFirst, nodup_dedupFirstAux, dedupFirstAux_sublist,
      mem_dedupFirstAux]

/-- Claim C8 evaluated on the code: the HTTPS and SCP spellings of the
upstream repository do NOT normalize to equal keys — the URL branch keeps
the pathname's leading slash while the SCP branch concatenates host and
path with no separator, so the two normal forms differ by exactly that
slash. -/
theorem normalizeRemoteUrl_scp_https_mismatch :
    normalizeRemoteUrl "https://github.com/cosZone/astro-koharu.git" =
      "github.com/cosZone/astro-koharu" ∧
    normalizeRemoteUrl "git@github.com:cosZone/astro-koharu" =
      "github.comcosZone/astro-koharu" ∧
    normalizeRemoteUrl "https://github.com/cosZone/astro-koharu.git" ≠
      normalizeRemoteUrl "git@github.com:cosZone/astro-koharu" := by decide

/-- Claim C9: the reducer is total and ignores unexpected events — for
every state and every non-`ERROR` action the current status does not
expect, the state comes back unchanged in all fields. -/
theorem unexpected_action_noop (s : UpdateState) (a : UpdateAction)
    (hne : isErrorAction a = false) (hexp : expectsAction s.status a = false) :
    updateReducer s a = s := by
  obtain ⟨st, g, u, m, b, e, bw, o⟩ := s
  dsimp only at hexp
  cases st <;> cases a <;> simp_all [updateReducer, expectsAction, isErrorAction]

/-- Witness for C9: `INSTALLED` received while still `checking` is
ignored. -/
theorem unexpected_action_noop_witness :
    isErrorAction UpdateAction.INSTALLED = false ∧
    expectsAction sCheckPlain.status UpdateAction.INSTALLED = false ∧
    updateReducer sCheckPlain UpdateAction.INSTALLED = sCheckPlain :=
  ⟨by decide, by decide,
    unexpected_action_noop sCheckPlain UpdateAction.INSTALLED (by decide) (by decide)⟩

/-- Claim C10: every `GitStatusInfo` that `checkGitStatus` produces has
`uncommittedCount` equal to the length of `uncommittedFiles`, and
`isClean` true exactly when that count is zero. -/
theorem checkGitStatus_consistent (w : GitWorld) (info : GitStatusInfo)
    (h : checkGitStatus w = some info) :
    info.uncommittedCount = info.uncommittedFiles.length ∧
    (info.isClean = true ↔ info.uncommittedCount = 0) := by
  unfold checkGitStatus at h
  cases hb : w.git "rev-parse --abbrev-ref HEAD" with
  | none => rw [hb] at h; simp at h
  | some br =>
    rw [hb] at h
    simp only [Option.some.injEq] at h
    subst h
    simp [List.isEmpty_iff, List.length_eq_zero]

/-- Witness for C10: the dirty-tree repository yields a consistent status
record with two uncommitted files. -/
theorem checkGitStatus_consistent_witness :
    checkGitStatus wDirtyTree = some gsDirtyTree ∧
    (gsDirtyTree.uncommittedCount = gsDirtyTree.uncommittedFiles.length ∧
      (gsDirtyTree.isClean = true ↔ gsDirtyTree.uncommittedCount = 0)) :=
  ⟨by decide, checkGitStatus_consistent wDirtyTree gsDirtyTree (by decide)⟩

end Koharu
